import Mathlib

/-!
Verification development for the multi-agent research pipeline
(orchestrator, lead researcher, subagents, citation agent).

The Python source is shallowly embedded: pure control logic becomes Lean
functions; calls to external collaborators (LLM gateway, search provider)
are modelled by oracle arguments supplying the collaborator's reply, with
`Option`/`Except` capturing JSON-parse failure and raised exceptions.
Python dicts produced by the agents are modelled as structures; a field
whose key may be absent in the dict is modelled with `Option`.  Fields that
feed only prompt strings or logging (e.g. `limitations`, `relevance_score`,
`sources_analyzed`, `raw_response`) are omitted, as is the memory store,
whose reads and writes do not influence the control flow modelled here.
-/

namespace DeepResearch

/-! ## Configuration (src/config.py) -/

structure Settings where
  max_iterations : Nat
  max_subagents : Nat
  deriving Repr, DecidableEq

/-- Defaults of `Settings`: `max_iterations = 3`, `max_subagents = 4`. -/
def defaultSettings : Settings :=
  { max_iterations := 3, max_subagents := 4 }

/-! ## Shared data model -/

/-- A sub-task as consumed by the pipeline (all keys present). -/
structure SubTask where
  id : String
  title : String
  description : String
  focus_area : String
  search_queries : List String
  expected_output : String
  deriving Repr, DecidableEq

/-- A sub-task as parsed from the LLM gateway reply in `decompose_tasks`;
the `id` key may be absent. -/
structure RawTask where
  id : Option String
  title : String
  description : String
  focus_area : String
  search_queries : List String
  expected_output : String
  deriving Repr, DecidableEq

/-- One hit as returned by the search provider (`DDGS.text`). -/
structure RawHit where
  title : String
  link : String
  body : String
  deriving Repr, DecidableEq

/-- One search result dict as built by `Subagent._web_search`. -/
structure SearchResult where
  title : String
  link : String
  snippet : String
  source : String
  query : String
  deriving Repr, DecidableEq

/-- The evaluation object attached to a successful sub-task result.
`credible_sources` is `Option` because a gateway-parsed evaluation may
omit the key (checked by `_extract_sources`). -/
structure Evaluation where
  summary : String
  key_insights : List String
  credible_sources : Option (List String)
  confidence : String
  deriving Repr, DecidableEq

/-- One entry of the accumulated results sequence.  A successful entry has
`search_results` and `evaluation` present and `error` absent; an entry for
a failed task has only `error` (plus `agent`, `task`, `timestamp`), which
matches the key-presence tests done by `CitationAgent._extract_sources`. -/
structure SubTaskResult where
  agent : String
  task : SubTask
  search_results : Option (List SearchResult)
  evaluation : Option Evaluation
  error : Option String
  timestamp : String
  deriving Repr, DecidableEq

/-- A deduplicated source entry. -/
structure Source where
  url : String
  title : String
  domain : String
  context : String
  deriving Repr, DecidableEq

/-! ## Citation agent (src/agents/citation_agent.py) -/

/-- Characters up to (excluding) the first slash. -/
def takeUntilSlash : List Char → List Char
  | [] => []
  | c :: rest => if c = '/' then [] else c :: takeUntilSlash rest

/-- Characters after the first occurrence of the scheme separator. -/
def afterScheme : List Char → Option (List Char)
  | ':' :: '/' :: '/' :: rest => some rest
  | _ :: rest => afterScheme rest
  | [] => none

/-- `CitationAgent._extract_domain`: the host component of the url
(`urlparse(url).netloc`), simplified to the text between the scheme
separator and the next slash; no claim depends on its exact value. -/
def extract_domain (url : String) : String :=
  match afterScheme url.toList with
  | some rest => String.mk (takeUntilSlash rest)
  | none => ""

/-- The source dict built from a search result in `_extract_sources`. -/
def sourceOfSearchResult (sr : SearchResult) : Source :=
  { url := sr.source, title := sr.title, domain := extract_domain sr.source,
    context := sr.snippet }

/-- The source dict built from a credible-sources entry in `_extract_sources`. -/
def sourceOfCredible (agent url : String) : Source :=
  { url := url, title := "Source from " ++ agent, domain := extract_domain url,
    context := "Credible source identified by subagent" }

/-- One step of the search-results scan: add the source unless its url is
empty or already seen (`if url and url not in seen_urls`). -/
def addSearchSource (st : List String × List Source) (sr : SearchResult) :
    List String × List Source :=
  if sr.source ≠ "" ∧ sr.source ∉ st.1 then
    (sr.source :: st.1, st.2 ++ [sourceOfSearchResult sr])
  else st

/-- One step of the credible-sources scan: add unless already seen
(`if source not in seen_urls`; no emptiness test in the source). -/
def addCredibleSource (agent : String) (st : List String × List Source)
    (url : String) : List String × List Source :=
  if url ∉ st.1 then
    (url :: st.1, st.2 ++ [sourceOfCredible agent url])
  else st

/-- Scan of one result dict: its `search_results` (if the key is present),
then its `evaluation.credible_sources` (if both keys are present). -/
def extractFromResult (st : List String × List Source) (r : SubTaskResult) :
    List String × List Source :=
  let st1 := match r.search_results with
    | some srs => srs.foldl addSearchSource st
    | none => st
  match r.evaluation with
  | some ev =>
    match ev.credible_sources with
    | some urls => urls.foldl (addCredibleSource r.agent) st1
    | none => st1
  | none => st1

/-- `CitationAgent._extract_sources`. -/
def extract_sources (results : List SubTaskResult) : List Source :=
  (results.foldl extractFromResult ([], [])).2

/-- The stream of candidate sources contributed by one result, in scan
order, before deduplication (search results with a non-empty url, then
credible sources). -/
def candidatesOfResult (r : SubTaskResult) : List Source :=
  (match r.search_results with
   | some srs => (srs.filter (fun sr => sr.source ≠ "")).map sourceOfSearchResult
   | none => []) ++
  (match r.evaluation with
   | some ev => ((ev.credible_sources.getD []).map (sourceOfCredible r.agent))
   | none => [])

/-- The full candidate stream over the accumulated results, in scan order. -/
def candidates (results : List SubTaskResult) : List Source :=
  (results.map candidatesOfResult).flatten

/-- Generic first-seen-wins deduplication step, keyed by url. -/
def dedupStep (st : List String × List Source) (s : Source) :
    List String × List Source :=
  if s.url ∉ st.1 then (s.url :: st.1, st.2 ++ [s]) else st

theorem addSearchSource_eq_dedupStep (st : List String × List Source)
    (sr : SearchResult) (h : sr.source ≠ "") :
    addSearchSource st sr = dedupStep st (sourceOfSearchResult sr) := by
  simp only [addSearchSource, dedupStep, sourceOfSearchResult, h, ne_eq,
    not_false_eq_true, true_and]

theorem addCredibleSource_eq_dedupStep (agent : String)
    (st : List String × List Source) (url : String) :
    addCredibleSource agent st url = dedupStep st (sourceOfCredible agent url) := by
  simp only [addCredibleSource, dedupStep, sourceOfCredible]

theorem foldl_addSearchSource_eq (srs : List SearchResult) :
    ∀ st, srs.foldl addSearchSource st =
      ((srs.filter (fun sr => sr.source ≠ "")).map sourceOfSearchResult).foldl
        dedupStep st := by
  induction srs with
  | nil => intro st; rfl
  | cons sr rest ih =>
    intro st
    by_cases h : sr.source = ""
    · have hstep : addSearchSource st sr = st := by
        simp [addSearchSource, h]
      simp only [List.foldl_cons, hstep, List.filter_cons]
      have : (decide (sr.source ≠ "")) = false := by simp [h]
      rw [this]
      exact ih st
    · simp only [List.foldl_cons, List.filter_cons]
      have : (decide (sr.source ≠ "")) = true := by simp [h]
      rw [this, addSearchSource_eq_dedupStep st sr h]
      simp only [List.map_cons, List.foldl_cons]
      exact ih _

theorem foldl_addCredibleSource_eq (agent : String) (urls : List String) :
    ∀ st, urls.foldl (addCredibleSource agent) st =
      (urls.map (sourceOfCredible agent)).foldl dedupStep st := by
  induction urls with
  | nil => intro st; rfl
  | cons u rest ih =>
    intro st
    simp only [List.foldl_cons, List.map_cons,
      addCredibleSource_eq_dedupStep agent st u]
    exact ih _

theorem extractFromResult_eq_dedup (r : SubTaskResult)
    (st : List String × List Source) :
    extractFromResult st r = (candidatesOfResult r).foldl dedupStep st := by
  unfold extractFromResult candidatesOfResult
  cases hsr : r.search_results with
  | none =>
    cases hev : r.evaluation with
    | none => simp
    | some ev =>
      cases hcs : ev.credible_sources with
      | none => simp [hcs]
      | some urls => simp [hcs, foldl_addCredibleSource_eq]
  | some srs =>
    cases hev : r.evaluation with
    | none => simp [foldl_addSearchSource_eq]
    | some ev =>
      cases hcs : ev.credible_sources with
      | none => simp [hcs, foldl_addSearchSource_eq]
      | some urls =>
        simp [hcs, foldl_addSearchSource_eq, foldl_addCredibleSource_eq,
          List.foldl_append]

theorem extract_sources_eq_dedup (results : List SubTaskResult) :
    results.foldl extractFromResult ([], []) =
      (candidates results).foldl dedupStep ([], []) := by
  unfold candidates
  generalize ([], []) = st
  induction results generalizing st with
  | nil => rfl
  | cons r rest ih =>
    simp only [List.foldl_cons, List.map_cons, List.flatten_cons,
      List.foldl_append, extractFromResult_eq_dedup]
    exact ih _

/-- Invariant of the first-seen-wins fold: starting from a state whose seen
set matches the output urls and whose output urls are distinct, the fold
appends exactly the first occurrence of each not-yet-seen url. -/
theorem dedupStep_foldl_spec (l : List Source) :
    ∀ seen out,
      (∀ u, u ∈ seen ↔ u ∈ out.map Source.url) →
      (out.map Source.url).Nodup →
      (∀ u, u ∈ (l.foldl dedupStep (seen, out)).1 ↔
        u ∈ (l.foldl dedupStep (seen, out)).2.map Source.url) ∧
      ((l.foldl dedupStep (seen, out)).2.map Source.url).Nodup ∧
      ∃ ext, (l.foldl dedupStep (seen, out)).2 = out ++ ext ∧
        ∀ s ∈ ext, s.url ∉ seen ∧
          l.find? (fun c => c.url == s.url) = some s := by
  induction l with
  | nil =>
    intro seen out hiff hnd
    exact ⟨hiff, hnd, [], by simp, by simp⟩
  | cons a rest ih =>
    intro seen out hiff hnd
    by_cases hmem : a.url ∈ seen
    · have hstep : dedupStep (seen, out) a = (seen, out) := by
        simp [dedupStep, hmem]
      simp only [List.foldl_cons, hstep]
      obtain ⟨h1, h2, ext, hout, hfind⟩ := ih seen out hiff hnd
      refine ⟨h1, h2, ext, hout, ?_⟩
      intro s hs
      obtain ⟨hns, hf⟩ := hfind s hs
      refine ⟨hns, ?_⟩
      rw [List.find?_cons]
      have hne : (a.url == s.url) = false := by
        by_contra hcon
        have : a.url = s.url := by
          cases h : (a.url == s.url) with
          | false => exact absurd h hcon
          | true => exact eq_of_beq h
        rw [this] at hmem
        exact hns hmem
      rw [hne]
      exact hf
    · have hstep : dedupStep (seen, out) a = (a.url :: seen, out ++ [a]) := by
        simp [dedupStep, hmem]
      simp only [List.foldl_cons, hstep]
      have hiff2 : ∀ u, u ∈ a.url :: seen ↔ u ∈ (out ++ [a]).map Source.url := by
        intro u
        simp only [List.mem_cons, List.map_append, List.mem_append,
          List.map_cons, List.map_nil, List.mem_singleton]
        constructor
        · rintro (h | h)
          · exact Or.inr (by simp [h])
          · exact Or.inl ((hiff u).1 h)
        · rintro (h | h)
          · exact Or.inr ((hiff u).2 h)
          · simp at h; exact Or.inl h
      have hnd2 : ((out ++ [a]).map Source.url).Nodup := by
        simp only [List.map_append, List.map_cons, List.map_nil]
        rw [List.nodup_append]
        refine ⟨hnd, List.nodup_singleton _, ?_⟩
        intro u hu
        simp only [List.mem_singleton]
        intro hcon
        rw [hcon] at hu
        exact hmem ((hiff a.url).2 hu)
      obtain ⟨h1, h2, ext, hout, hfind⟩ := ih (a.url :: seen) (out ++ [a]) hiff2 hnd2
      refine ⟨h1, h2, a :: ext, by simpa using hout, ?_⟩
      intro s hs
      rcases List.mem_cons.1 hs with hsa | hse
      · subst hsa
        refine ⟨hmem, ?_⟩
        rw [List.find?_cons]
        have : (s.url == s.url) = true := by simp
        rw [this]
      · obtain ⟨hns, hf⟩ := hfind s hse
        have hnsseen : s.url ∉ seen := fun h => hns (List.mem_cons_of_mem _ h)
        refine ⟨hnsseen, ?_⟩
        rw [List.find?_cons]
        have hne : (a.url == s.url) = false := by
          by_contra hcon
          have heq : a.url = s.url := by
            cases h : (a.url == s.url) with
            | false => exact absurd h hcon
            | true => exact eq_of_beq h
          exact hns (by rw [← heq]; exact List.mem_cons_self _ _)
        rw [hne]
        exact hf

/-- The citation dict as parsed from the gateway reply; `source_index` may
be absent (`citation.get("source_index", 0)`) and, being a JSON integer,
may be negative. -/
structure GatewayCitation where
  claim : String
  source_index : Option Int
  citation_markdown : String
  deriving Repr, DecidableEq

/-- A validated citation: the gateway dict with `source_url` overwritten
and `source_title` added from the indexed source (`source_index` itself is
not written back, so it is still absent if the gateway omitted it). -/
structure OutCitation where
  claim : String
  source_index : Option Int
  source_url : String
  source_title : String
  citation_markdown : String
  deriving Repr, DecidableEq

/-- The gateway reply for one section, when it parses as JSON;
`cited_content` may be absent (`result.get("cited_content", content)`). -/
structure CitResp where
  cited_content : Option String
  citations : List GatewayCitation
  deriving Repr, DecidableEq

/-- The validation loop of `_process_section_for_citations`: keep a
citation iff `0 <= source_index < len(sources)` (with the absent index
defaulting to 0), back-filling `source_url` and `source_title` from the
indexed source. -/
def validateCitations (sources : List Source) : List GatewayCitation → List OutCitation
  | [] => []
  | c :: rest =>
    let idx : Int := c.source_index.getD 0
    if h : 0 ≤ idx ∧ idx < (sources.length : Int) then
      { claim := c.claim, source_index := c.source_index,
        source_url := (sources.get ⟨idx.toNat, by omega⟩).url,
        source_title := (sources.get ⟨idx.toNat, by omega⟩).title,
        citation_markdown := c.citation_markdown } :: validateCitations sources rest
    else validateCitations sources rest

/-- `CitationAgent._process_section_for_citations`, given the parse result
of the gateway reply (`none` = `json.JSONDecodeError` fallback).  Empty
content or an empty source list short-circuits to a pass-through. -/
def process_section_for_citations (content : String) (sources : List Source)
    (resp : Option CitResp) : String × List OutCitation :=
  if content = "" ∨ sources = [] then (content, [])
  else
    match resp with
    | none => (content, [])
    | some r => (r.cited_content.getD content, validateCitations sources r.citations)

/-- Per-iteration synthesis report. -/
structure Synthesis where
  query : String
  executive_summary : String
  key_findings : List String
  detailed_analysis : String
  sources : List String
  gaps_identified : List String
  recommendations : List String
  confidence_level : String
  completeness_score : Nat
  synthesis_timestamp : String
  deriving Repr, DecidableEq

/-- The three per-section gateway replies consumed by `_add_citations`
(in source order: executive summary, detailed analysis, key findings). -/
structure CitationEnv where
  exec_resp : Option CitResp
  detailed_resp : Option CitResp
  key_resp : Option CitResp
  deriving Repr, DecidableEq

structure CitationMetadata where
  total_citations : Nat
  sources_used : Nat
  citation_style : String
  deriving Repr, DecidableEq

/-- The cited report: the synthesis with cited section text substituted in
place (note the source replaces the `key_findings` list by the cited joined
string), plus the unioned citation list and metadata. -/
structure CitedReport where
  query : String
  executive_summary : String
  key_findings : String
  detailed_analysis : String
  sources : List String
  gaps_identified : List String
  recommendations : List String
  confidence_level : String
  completeness_score : Nat
  synthesis_timestamp : String
  citations : List OutCitation
  citation_metadata : CitationMetadata
  deriving Repr, DecidableEq

/-- `CitationAgent._add_citations`. -/
def add_citations (syn : Synthesis) (sources : List Source) (cenv : CitationEnv) :
    CitedReport :=
  let es := process_section_for_citations syn.executive_summary sources cenv.exec_resp
  let da := process_section_for_citations syn.detailed_analysis sources cenv.detailed_resp
  let kf := process_section_for_citations (String.intercalate "\n" syn.key_findings)
    sources cenv.key_resp
  let all_citations := es.2 ++ da.2 ++ kf.2
  let meta : CitationMetadata :=
    { total_citations := all_citations.length,
      sources_used := sources.length, citation_style := "markdown" }
  { query := syn.query, executive_summary := es.1, key_findings := kf.1,
    detailed_analysis := da.1, sources := syn.sources,
    gaps_identified := syn.gaps_identified, recommendations := syn.recommendations,
    confidence_level := syn.confidence_level,
    completeness_score := syn.completeness_score,
    synthesis_timestamp := syn.synthesis_timestamp,
    citations := all_citations,
    citation_metadata := meta }

/-- The full report dict returned by `CitationAgent.process_report`. -/
structure FinalReport where
  original_synthesis : Synthesis
  cited_report : CitedReport
  sources_used : List Source
  citation_count : Nat
  timestamp : String
  deriving Repr, DecidableEq

/-- `CitationAgent.process_report`. -/
def process_report (syn : Synthesis) (results : List SubTaskResult)
    (cenv : CitationEnv) (ts : String) : FinalReport :=
  let all_sources := extract_sources results
  let cited := add_citations syn all_sources cenv
  { original_synthesis := syn, cited_report := cited, sources_used := all_sources,
    citation_count := cited.citations.length, timestamp := ts }

theorem validateCitations_mem (sources : List Source) :
    ∀ cs c, c ∈ validateCitations sources cs →
      ∃ h : (c.source_index.getD 0).toNat < sources.length,
        0 ≤ c.source_index.getD 0 ∧
        c.source_index.getD 0 < (sources.length : Int) ∧
        c.source_url = (sources.get ⟨(c.source_index.getD 0).toNat, h⟩).url ∧
        c.source_title = (sources.get ⟨(c.source_index.getD 0).toNat, h⟩).title := by
  intro cs
  induction cs with
  | nil => intro c hc; simp [validateCitations] at hc
  | cons g rest ih =>
    intro c hc
    rw [validateCitations] at hc
    by_cases h : 0 ≤ (g.source_index.getD 0) ∧
        (g.source_index.getD 0) < (sources.length : Int)
    · rw [dif_pos h] at hc
      rcases List.mem_cons.1 hc with hceq | hcrest
      · subst hceq
        have hlt : ((g.source_index.getD 0)).toNat < sources.length := by omega
        exact ⟨hlt, h.1, h.2, rfl, rfl⟩
      · exact ih c hcrest
    · rw [dif_neg h] at hc
      exact ih c hc

theorem process_section_snd_mem (content : String) (sources : List Source)
    (resp : Option CitResp) (c : OutCitation)
    (hc : c ∈ (process_section_for_citations content sources resp).2) :
    ∃ cs, c ∈ validateCitations sources cs := by
  unfold process_section_for_citations at hc
  by_cases h : content = "" ∨ sources = []
  · rw [if_pos h] at hc; simp at hc
  · rw [if_neg h] at hc
    cases resp with
    | none => simp at hc
    | some r => exact ⟨r.citations, hc⟩

theorem validateCitations_none_mem (s : Source) (tl : List Source) :
    ∀ cs (c : GatewayCitation), c ∈ cs → c.source_index = none →
      ∃ oc ∈ validateCitations (s :: tl) cs,
        oc.claim = c.claim ∧ oc.source_index = none ∧
        oc.source_url = s.url ∧ oc.source_title = s.title ∧
        oc.citation_markdown = c.citation_markdown := by
  intro cs
  induction cs with
  | nil => intro c hc; simp at hc
  | cons g rest ih =>
    intro c hc hnone
    rcases List.mem_cons.1 hc with hceq | hcrest
    · subst hceq
      rw [validateCitations]
      have hidx : (c.source_index.getD 0) = 0 := by rw [hnone]; rfl
      have hcond : 0 ≤ (c.source_index.getD 0) ∧
          (c.source_index.getD 0) < (((s :: tl).length : Nat) : Int) := by
        rw [hidx]
        constructor
        · exact le_refl 0
        · simp
      rw [dif_pos hcond]
      refine ⟨_, List.mem_cons_self _ _, rfl, hnone, ?_, ?_, rfl⟩
      · simp [hidx]
      · simp [hidx]
    · obtain ⟨oc, hocmem, hfields⟩ := ih c hcrest hnone
      rw [validateCitations]
      by_cases h : 0 ≤ (g.source_index.getD 0) ∧
          (g.source_index.getD 0) < (((s :: tl).length : Nat) : Int)
      · rw [dif_pos h]
        exact ⟨oc, List.mem_cons_of_mem _ hocmem, hfields⟩
      · rw [dif_neg h]
        exact ⟨oc, hocmem, hfields⟩

/-- Claim C3: `_extract_sources` deduplicates by url with first-seen-wins:
every url appears at most once in the output, each kept source equals the
first candidate with its url in the scan order of the accumulated results
(so its title and context are those of the first occurrence), and running
the extraction twice over the same accumulated results yields the same
list. -/
theorem extract_sources_dedup_first_seen (results : List SubTaskResult) :
    ((extract_sources results).map Source.url).Nodup ∧
    (∀ s ∈ extract_sources results,
      (candidates results).find? (fun c => c.url == s.url) = some s) ∧
    extract_sources results = extract_sources results := by
  have hrw : extract_sources results =
      ((candidates results).foldl dedupStep ([], [])).2 := by
    unfold extract_sources
    rw [extract_sources_eq_dedup]
  have hspec := dedupStep_foldl_spec (candidates results) [] []
    (by intro u; simp) (by simp)
  obtain ⟨_, hnd, ext, hout, hfind⟩ := hspec
  refine ⟨?_, ?_, rfl⟩
  · rw [hrw]; exact hnd
  · intro s hs
    rw [hrw] at hs
    rw [hout] at hs
    simp only [List.nil_append] at hs
    exact (hfind s hs).2

def taskEx : SubTask :=
  { id := "t1", title := "T", description := "d", focus_area := "f",
    search_queries := ["q"], expected_output := "o" }

def srHitA : SearchResult :=
  { title := "A", link := "http://a.com", snippet := "sa",
    source := "http://a.com", query := "q" }

def evalC3 : Evaluation :=
  { summary := "s", key_insights := [],
    credible_sources := some ["http://a.com", "http://b.com"],
    confidence := "high" }

def resultC3 : SubTaskResult :=
  { agent := "Subagent_t1", task := taskEx,
    search_results := some [srHitA, srHitA],
    evaluation := some evalC3,
    error := none, timestamp := "ts" }

theorem extract_sources_dedup_first_seen_witness :
    ((extract_sources [resultC3]).map Source.url).Nodup ∧
    (candidates [resultC3]).find?
      (fun c => c.url == (sourceOfSearchResult srHitA).url) =
      some (sourceOfSearchResult srHitA) := by
  have h := extract_sources_dedup_first_seen [resultC3]
  exact ⟨h.1, h.2.1 (sourceOfSearchResult srHitA) (by decide)⟩

/-- Claim C4: every citation kept by the validation loop, and hence every
citation in the assembled cited report, has a `source_index` (when the
gateway supplied one) inside `[0, len(sources))`, and its `source_url` and
`source_title` are back-filled from the source at that index (index 0 when
the gateway omitted it). -/
theorem citations_in_report_valid (syn : Synthesis) (sources : List Source)
    (cenv : CitationEnv) (c : OutCitation)
    (hc : c ∈ (add_citations syn sources cenv).citations) :
    (∀ i, c.source_index = some i → 0 ≤ i ∧ i < (sources.length : Int)) ∧
    ∃ h : (c.source_index.getD 0).toNat < sources.length,
      c.source_url = (sources.get ⟨(c.source_index.getD 0).toNat, h⟩).url ∧
      c.source_title = (sources.get ⟨(c.source_index.getD 0).toNat, h⟩).title := by
  have hmem : ∃ cs, c ∈ validateCitations sources cs := by
    simp only [add_citations, List.mem_append] at hc
    rcases hc with (hc | hc) | hc
    · exact process_section_snd_mem _ _ _ _ hc
    · exact process_section_snd_mem _ _ _ _ hc
    · exact process_section_snd_mem _ _ _ _ hc
  obtain ⟨cs, hcs⟩ := hmem
  obtain ⟨hlt, h0, hup, hu, ht⟩ := validateCitations_mem sources cs c hcs
  constructor
  · intro i hi
    rw [hi] at h0 hup
    simp only [Option.getD_some] at h0 hup
    exact ⟨h0, hup⟩
  · exact ⟨hlt, hu, ht⟩

def srcA : Source :=
  { url := "http://a.com", title := "A", domain := "a.com", context := "ca" }

def srcB : Source :=
  { url := "http://b.com", title := "B", domain := "b.com", context := "cb" }

def gcIdx1 : GatewayCitation :=
  { claim := "cl", source_index := some 1, citation_markdown := "m1" }

def gcNoIdx : GatewayCitation :=
  { claim := "cn", source_index := none, citation_markdown := "m2" }

def gcBad : GatewayCitation :=
  { claim := "cb", source_index := some 5, citation_markdown := "m3" }

def respEx : CitResp :=
  { cited_content := some "es cited", citations := [gcIdx1, gcNoIdx, gcBad] }

def cenvEx : CitationEnv :=
  { exec_resp := some respEx, detailed_resp := none, key_resp := none }

def synEx : Synthesis :=
  { query := "q", executive_summary := "es", key_findings := ["kf"],
    detailed_analysis := "da", sources := [], gaps_identified := [],
    recommendations := [], confidence_level := "high",
    completeness_score := 90, synthesis_timestamp := "ts" }

def outIdx1 : OutCitation :=
  { claim := "cl", source_index := some 1, source_url := "http://b.com",
    source_title := "B", citation_markdown := "m1" }

theorem citations_in_report_valid_witness :
    (∀ i, outIdx1.source_index = some i →
      0 ≤ i ∧ i < (([srcA, srcB] : List Source).length : Int)) ∧
    ∃ h : (outIdx1.source_index.getD 0).toNat < ([srcA, srcB] : List Source).length,
      outIdx1.source_url =
        (([srcA, srcB] : List Source).get ⟨(outIdx1.source_index.getD 0).toNat, h⟩).url ∧
      outIdx1.source_title =
        (([srcA, srcB] : List Source).get ⟨(outIdx1.source_index.getD 0).toNat, h⟩).title :=
  citations_in_report_valid synEx [srcA, srcB] cenvEx outIdx1 (by decide)

/-- Claim C10: a gateway citation that omits `source_index` is given the
default index 0; when the source list is non-empty it therefore passes
validation and is kept in the final citation list, with `source_url` and
`source_title` back-filled from the first source. -/
theorem missing_source_index_kept (syn : Synthesis) (s : Source) (tl : List Source)
    (cenv : CitationEnv) (r : CitResp) (c : GatewayCitation)
    (hr : cenv.exec_resp = some r) (hc : c ∈ r.citations)
    (hnone : c.source_index = none) (hne : syn.executive_summary ≠ "") :
    ∃ oc ∈ (add_citations syn (s :: tl) cenv).citations,
      oc.claim = c.claim ∧ oc.source_index = none ∧
      oc.source_url = s.url ∧ oc.source_title = s.title ∧
      oc.citation_markdown = c.citation_markdown := by
  obtain ⟨oc, hocmem, hfields⟩ := validateCitations_none_mem s tl r.citations c hc hnone
  refine ⟨oc, ?_, hfields⟩
  simp only [add_citations, List.mem_append]
  left; left
  unfold process_section_for_citations
  have hcond : ¬ (syn.executive_summary = "" ∨ (s :: tl : List Source) = []) := by
    rintro (h | h)
    · exact hne h
    · exact List.cons_ne_nil _ _ h
  rw [if_neg hcond, hr]
  exact hocmem

theorem missing_source_index_kept_witness :
    ∃ oc ∈ (add_citations synEx (srcA :: [srcB]) cenvEx).citations,
      oc.claim = gcNoIdx.claim ∧ oc.source_index = none ∧
      oc.source_url = srcA.url ∧ oc.source_title = srcA.title ∧
      oc.citation_markdown = gcNoIdx.citation_markdown :=
  missing_source_index_kept synEx srcA [srcB] cenvEx respEx gcNoIdx rfl
    (by decide) rfl (by decide)

/-! ## Lead researcher (src/agents/lead_researcher.py) -/

/-- The id-defaulting step of `decompose_tasks`:
`if "id" not in task: task["id"] = f"task_{i+1}"`. -/
def assignTaskId (i : Nat) (t : RawTask) : SubTask :=
  { id := t.id.getD ("task_" ++ toString (i + 1)),
    title := t.title, description := t.description, focus_area := t.focus_area,
    search_queries := t.search_queries, expected_output := t.expected_output }

/-- First canned fallback task of `decompose_tasks`. -/
def fallbackTask1 (query : String) : SubTask :=
  { id := "task_1", title := "General Information Search",
    description := "Search for general information about " ++ query,
    focus_area := "Overview and basics",
    search_queries := [query, "what is " ++ query],
    expected_output := "Comprehensive overview of the topic" }

/-- Second canned fallback task of `decompose_tasks`. -/
def fallbackTask2 (query : String) : SubTask :=
  { id := "task_2", title := "Current Trends and Developments",
    description := "Find current trends and recent developments related to " ++ query,
    focus_area := "Recent developments",
    search_queries := [query ++ " 2024", query ++ " trends", query ++ " latest"],
    expected_output := "Current state and trends" }

/-- `LeadResearcherAgent.decompose_tasks`, given the parse result of the
gateway reply (`none` = `json.JSONDecodeError`).  The parsed list is
returned as-is apart from id defaulting; nothing bounds its length or
checks id uniqueness. -/
def decompose_tasks (query : String) (resp : Option (List RawTask)) : List SubTask :=
  match resp with
  | some tasks => tasks.enum.map (fun p => assignTaskId p.1 p.2)
  | none => [fallbackTask1 query, fallbackTask2 query]

structure ContinuationDecision where
  needs_more_research : Bool
  reasoning : String
  specific_gaps : List String
  refined_queries : List String
  priority : String
  current_iteration : Nat
  deriving Repr, DecidableEq

/-- The continuation decision as parsed from the gateway reply (before
`current_iteration` is attached). -/
structure ParsedDecision where
  needs_more_research : Bool
  reasoning : String
  specific_gaps : List String
  refined_queries : List String
  priority : String
  deriving Repr, DecidableEq

/-- `LeadResearcherAgent.needs_more_research`, given the parse result of
the gateway reply.  The parse-failure fallback compares the iteration
against the hard-coded literal 3 (source comment: `# Max 3 iterations`),
not against `settings.max_iterations`. -/
def needs_more_research_fn (iteration : Nat) (resp : Option ParsedDecision) :
    ContinuationDecision :=
  match resp with
  | some d =>
    { needs_more_research := d.needs_more_research, reasoning := d.reasoning,
      specific_gaps := d.specific_gaps, refined_queries := d.refined_queries,
      priority := d.priority, current_iteration := iteration }
  | none =>
    { needs_more_research := decide (iteration < 3),
      reasoning := "Default decision based on iteration " ++ toString iteration,
      specific_gaps := [], refined_queries := [], priority := "medium",
      current_iteration := iteration }

/-- Modelled from the spec, for comparison with the code: the claimed
fallback rule for the continuation decision, namely continue iff
`iteration < max_iterations` where `max_iterations` is the pipeline-wide
configuration constant (default 3). -/
def claimedFallbackNeedsMore (s : Settings) (iteration : Nat) : Bool :=
  decide (iteration < s.max_iterations)

/-- The synthesis as parsed from the gateway reply (before `query` and
`synthesis_timestamp` are attached). -/
structure ParsedSynthesis where
  executive_summary : String
  key_findings : List String
  detailed_analysis : String
  sources : List String
  gaps_identified : List String
  recommendations : List String
  confidence_level : String
  completeness_score : Nat
  deriving Repr, DecidableEq

/-- `LeadResearcherAgent.synthesize_results`, given the parse result of
the gateway reply and the raw reply text.  `results` feeds only the
prompt string sent to the gateway. -/
def synthesize_results (query : String) (results : List SubTaskResult)
    (ts : String) (resp : Option ParsedSynthesis) (raw : String) : Synthesis :=
  match resp with
  | some p =>
    { query := query, executive_summary := p.executive_summary,
      key_findings := p.key_findings, detailed_analysis := p.detailed_analysis,
      sources := p.sources, gaps_identified := p.gaps_identified,
      recommendations := p.recommendations, confidence_level := p.confidence_level,
      completeness_score := p.completeness_score, synthesis_timestamp := ts }
  | none =>
    { query := query,
      executive_summary := "Research completed on " ++ query,
      key_findings := ["Research findings compiled from multiple sources"],
      detailed_analysis := raw, sources := [], gaps_identified := [],
      recommendations := [], confidence_level := "medium",
      completeness_score := 70, synthesis_timestamp := ts }

def rawTaskNoId : RawTask :=
  { id := none, title := "T", description := "d", focus_area := "f",
    search_queries := ["q"], expected_output := "o" }

def fiveRawTasks : List RawTask := List.replicate 5 rawTaskNoId

/-- Counterexample to claim C6 as stated: when the gateway reply parses to
a list of 5 tasks, `decompose_tasks` returns 5 sub-tasks, outside the
claimed 2-to-4 range. -/
theorem decompose_count_counterexample :
    ¬ (2 ≤ (decompose_tasks "q" (some fiveRawTasks)).length ∧
       (decompose_tasks "q" (some fiveRawTasks)).length ≤ 4) := by
  decide

/-- Claim C6 (amended): `decompose_tasks` returns one sub-task per element
of the gateway's parsed task list, in order, assigning `task_<i+1>` to a
task at position `i` that lacks an id (no bound on the count and no
uniqueness check on gateway-supplied ids); on parse failure it falls back,
without raising, to exactly the two canned tasks derived mechanically from
the query string. -/
theorem decompose_structure (query : String) (resp : Option (List RawTask)) :
    (∀ tasks, resp = some tasks →
      (decompose_tasks query resp).length = tasks.length ∧
      ∀ i t, tasks[i]? = some t →
        (decompose_tasks query resp)[i]? = some (assignTaskId i t) ∧
        (assignTaskId i t).id = t.id.getD ("task_" ++ toString (i + 1)) ∧
        (assignTaskId i t).title = t.title) ∧
    (resp = none →
      decompose_tasks query resp = [fallbackTask1 query, fallbackTask2 query] ∧
      (decompose_tasks query resp).length = 2) := by
  constructor
  · intro tasks hresp
    subst hresp
    constructor
    · simp [decompose_tasks]
    · intro i t ht
      refine ⟨?_, rfl, rfl⟩
      simp only [decompose_tasks, List.getElem?_map]
      rw [List.getElem?_enum, ht]
      rfl
  · intro hresp
    subst hresp
    exact ⟨rfl, rfl⟩

theorem decompose_structure_witness :
    (decompose_tasks "q" (some [rawTaskNoId])).length = 1 ∧
    (decompose_tasks "q" (some [rawTaskNoId]))[0]? = some (assignTaskId 0 rawTaskNoId) ∧
    (assignTaskId 0 rawTaskNoId).id = "task_1" ∧
    decompose_tasks "q" none = [fallbackTask1 "q", fallbackTask2 "q"] := by
  have h := decompose_structure "q" (some [rawTaskNoId])
  have h0 := decompose_structure "q" none
  have ha := h.1 [rawTaskNoId] rfl
  have hb := ha.2 0 rawTaskNoId (by decide)
  exact ⟨ha.1, hb.1, by decide, (h0.2 rfl).1⟩

def settingsFive : Settings := { max_iterations := 5, max_subagents := 4 }

/-- Counterexample to claim C7 as stated: with the configuration constant
`max_iterations` set to 5, the code's parse-failure fallback at iteration 3
answers `false` while the claimed rule `iteration < max_iterations`
answers `true` — the code compares against a hard-coded 3. -/
theorem continuation_fallback_counterexample :
    (needs_more_research_fn 3 none).needs_more_research = false ∧
    claimedFallbackNeedsMore settingsFive 3 = true ∧
    (needs_more_research_fn 3 none).needs_more_research ≠
      claimedFallbackNeedsMore settingsFive 3 := by
  decide

/-- Claim C7 (amended): when the gateway reply is unparseable,
`needs_more_research` falls back to the numeric comparison
`iteration < 3`, where 3 is a hard-coded literal equal to the default of
the configuration constant `max_iterations` (so the claimed rule holds for
the default configuration), with empty `specific_gaps` and
`refined_queries`. -/
theorem continuation_fallback_rule (iteration : Nat) :
    (needs_more_research_fn iteration none).needs_more_research =
      decide (iteration < 3) ∧
    (needs_more_research_fn iteration none).needs_more_research =
      claimedFallbackNeedsMore defaultSettings iteration ∧
    (needs_more_research_fn iteration none).specific_gaps = [] ∧
    (needs_more_research_fn iteration none).refined_queries = [] ∧
    (needs_more_research_fn iteration none).current_iteration = iteration := by
  refine ⟨rfl, ?_, rfl, rfl, rfl⟩
  simp [needs_more_research_fn, claimedFallbackNeedsMore, defaultSettings]

/-- Claim C8: `synthesize_results` is total over every query and result
sequence (zero search results included); on parse failure it returns the
fallback synthesis carrying the raw gateway text in `detailed_analysis`,
`confidence_level = "medium"` and `completeness_score = 70`. -/
theorem synthesize_total_fallback (query : String) (results : List SubTaskResult)
    (ts : String) (resp : Option ParsedSynthesis) (raw : String) :
    (synthesize_results query results ts resp raw).query = query ∧
    (synthesize_results query results ts resp raw).synthesis_timestamp = ts ∧
    (resp = none →
      (synthesize_results query results ts resp raw).detailed_analysis = raw ∧
      (synthesize_results query results ts resp raw).confidence_level = "medium" ∧
      (synthesize_results query results ts resp raw).completeness_score = 70) ∧
    (∀ p, resp = some p →
      (synthesize_results query results ts resp raw).confidence_level =
        p.confidence_level) := by
  cases resp with
  | none => exact ⟨rfl, rfl, fun _ => ⟨rfl, rfl, rfl⟩, fun p hp => by cases hp⟩
  | some p =>
    refine ⟨rfl, rfl, ?_, ?_⟩
    · intro h; cases h
    · intro p2 hp
      cases hp
      rfl

def evalEmptyRes : Evaluation :=
  { summary := "No search results found", key_insights := [],
    credible_sources := some [], confidence := "low" }

def resultNoHits : SubTaskResult :=
  { agent := "Subagent_t1", task := taskEx, search_results := some [],
    evaluation := some evalEmptyRes, error := none, timestamp := "ts" }

theorem synthesize_total_fallback_witness :
    (synthesize_results "q" [resultNoHits] "ts" none "RAW").query = "q" ∧
    (synthesize_results "q" [resultNoHits] "ts" none "RAW").detailed_analysis = "RAW" ∧
    (synthesize_results "q" [resultNoHits] "ts" none "RAW").confidence_level = "medium" ∧
    (synthesize_results "q" [resultNoHits] "ts" none "RAW").completeness_score = 70 := by
  have h := synthesize_total_fallback "q" [resultNoHits] "ts" none "RAW"
  have hf := h.2.2.1 rfl
  exact ⟨h.1, hf.1, hf.2.1, hf.2.2⟩

/-! ## Subagent and task runner (src/agents/subagent.py, orchestrator._run_subagents) -/

/-- One subagent's external world: the search provider's reply per query
(`Except.error` = a raised provider exception) and the parse result of the
gateway's evaluation reply. -/
structure SubagentEnv where
  searchResp : String → Except String (List RawHit)
  evalResp : Option Evaluation
  timestamp : String

/-- `Subagent._web_search`: on a provider exception the error is caught
and the query degrades to an empty result list. -/
def web_search (query : String) (resp : Except String (List RawHit)) :
    List SearchResult :=
  match resp with
  | Except.error _ => []
  | Except.ok hits => hits.map (fun h =>
      { title := h.title, link := h.link, snippet := h.body,
        source := h.link, query := query })

/-- `Subagent._evaluate_results`, given the parse result of the gateway
reply (only consulted when there are results, as in the source). -/
def evaluate_results (task : SubTask) (srs : List SearchResult)
    (resp : Option Evaluation) : Evaluation :=
  if srs = [] then
    { summary := "No search results found", key_insights := [],
      credible_sources := some [], confidence := "low" }
  else
    match resp with
    | some ev => ev
    | none =>
      { summary := "Analyzed " ++ toString srs.length ++ " search results for "
          ++ task.focus_area,
        key_insights := ["Information gathered from multiple sources"],
        credible_sources := some ((srs.take 3).map (fun r => r.source)),
        confidence := "medium" }

/-- `Subagent.research`: every `search_queries` entry is searched and the
hits concatenated in query order, then evaluated. -/
def subagent_research (task : SubTask) (env : SubagentEnv) : SubTaskResult :=
  let search_results :=
    (task.search_queries.map (fun q => web_search q (env.searchResp q))).flatten
  { agent := "Subagent_" ++ task.id, task := task,
    search_results := some search_results,
    evaluation := some (evaluate_results task search_results env.evalResp),
    error := none, timestamp := env.timestamp }

/-- The error entry the orchestrator builds when `asyncio.gather` hands it
back an exception for the subagent at position `i`. -/
def errorEntry (ts : String) (t : SubTask) (e : String) : SubTaskResult :=
  { agent := "Subagent_" ++ t.id, task := t, search_results := none,
    evaluation := none, error := some e, timestamp := ts }

/-- `ResearchOrchestrator._run_subagents`: subagents are created for the
first `max_subagents` tasks only (`sub_tasks[:settings.max_subagents]`);
`outcome i` is what `asyncio.gather(..., return_exceptions=True)` yields
for the subagent at position `i` (`Except.error` = an exception). -/
def run_subagents (s : Settings) (ts : String) (sub_tasks : List SubTask)
    (outcome : Nat → Except String SubagentEnv) : List SubTaskResult :=
  ((sub_tasks.take s.max_subagents).enum).map (fun p =>
    match outcome p.1 with
    | Except.error e => errorEntry ts p.2 e
    | Except.ok env => subagent_research p.2 env)

theorem run_subagents_getElem (s : Settings) (ts : String)
    (tasks : List SubTask) (o : Nat → Except String SubagentEnv) (i : Nat) :
    (run_subagents s ts tasks o)[i]? =
      ((tasks.take s.max_subagents)[i]?).map (fun t =>
        match o i with
        | Except.error e => errorEntry ts t e
        | Except.ok env => subagent_research t env) := by
  unfold run_subagents
  rw [List.getElem?_map, List.getElem?_enum]
  cases (tasks.take s.max_subagents)[i]? with
  | none => rfl
  | some t => rfl

theorem getElem_take_imp (l : List SubTask) (n i : Nat) (t : SubTask)
    (h : (l.take n)[i]? = some t) : l[i]? = some t := by
  rcases Nat.lt_or_ge i n with hlt | hge
  · rwa [List.getElem?_take, if_pos hlt] at h
  · rw [List.getElem?_take, if_neg (by omega)] at h
    cases h

def fiveTasks : List SubTask := List.replicate 5 taskEx

def failAll : Nat → Except String SubagentEnv := fun _ => Except.error "boom"

/-- Counterexample to claim C2 as stated: with the default configuration
(`max_subagents = 4`) and an input list of 5 tasks, `_run_subagents`
returns only 4 results — the output length does not equal the input
length, because the source truncates to `sub_tasks[:settings.max_subagents]`. -/
theorem run_subagents_length_counterexample :
    (run_subagents defaultSettings "ts" fiveTasks failAll).length ≠
      fiveTasks.length := by
  decide

/-- Claim C2 (amended): `_run_subagents` returns one result per task of
the input truncated to its first `max_subagents` entries (so equal length
and order whenever the input has at most `max_subagents` tasks), and the
result at each position carries the task at that position, regardless of
how many tasks fail. -/
theorem run_subagents_length_order (s : Settings) (ts : String)
    (tasks : List SubTask) (outcome : Nat → Except String SubagentEnv) :
    (run_subagents s ts tasks outcome).length = min s.max_subagents tasks.length ∧
    ∀ (i : Nat) (r : SubTaskResult), (run_subagents s ts tasks outcome)[i]? = some r →
      tasks[i]? = some r.task := by
  constructor
  · simp [run_subagents]
  · intro i r hr
    rw [run_subagents_getElem] at hr
    cases htake : (tasks.take s.max_subagents)[i]? with
    | none => rw [htake] at hr; cases hr
    | some t =>
      rw [htake] at hr
      simp only [Option.map_some'] at hr
      have ht := getElem_take_imp tasks s.max_subagents i t htake
      have htask : r.task = t := by
        cases ho : outcome i with
        | error e => rw [ho] at hr; cases hr; rfl
        | ok env => rw [ho] at hr; cases hr; rfl
      rw [htask]
      exact ht

theorem run_subagents_length_order_witness :
    (run_subagents defaultSettings "ts" fiveTasks failAll).length =
      min defaultSettings.max_subagents fiveTasks.length ∧
    fiveTasks[0]? = some (errorEntry "ts" taskEx "boom").task := by
  have h := run_subagents_length_order defaultSettings "ts" fiveTasks failAll
  exact ⟨h.1, h.2 0 (errorEntry "ts" taskEx "boom") (by decide)⟩

/-- Claim C5: per-task failure isolation in one round. A provider error
degrades that query to an empty hit list; the result entry at position `i`
depends only on task `i`'s own outcome; a task whose execution raised is
converted to an entry carrying that error string for that task; a task
that completed keeps its own result with no error; and the batch yields an
entry for every task of the round. -/
theorem task_failure_isolated (s : Settings) (ts : String)
    (tasks : List SubTask) (o o2 : Nat → Except String SubagentEnv) (i : Nat) :
    (∀ q e, web_search q (Except.error e) = []) ∧
    (run_subagents s ts tasks o).length = (tasks.take s.max_subagents).length ∧
    (o i = o2 i →
      (run_subagents s ts tasks o)[i]? = (run_subagents s ts tasks o2)[i]?) ∧
    (∀ (e : String) (r : SubTaskResult), o i = Except.error e →
      (run_subagents s ts tasks o)[i]? = some r →
      r.error = some e ∧ tasks[i]? = some r.task) ∧
    (∀ (env : SubagentEnv) (r : SubTaskResult), o i = Except.ok env →
      (run_subagents s ts tasks o)[i]? = some r →
      r.error = none ∧ r = subagent_research r.task env) := by
  refine ⟨fun q e => rfl, by simp [run_subagents], ?_, ?_, ?_⟩
  · intro heq
    rw [run_subagents_getElem, run_subagents_getElem, heq]
  · intro e r ho hr
    rw [run_subagents_getElem, ho] at hr
    cases htake : (tasks.take s.max_subagents)[i]? with
    | none => rw [htake] at hr; cases hr
    | some t =>
      rw [htake] at hr
      simp only [Option.map_some'] at hr
      cases hr
      exact ⟨rfl, getElem_take_imp tasks s.max_subagents i t htake⟩
  · intro env r ho hr
    rw [run_subagents_getElem, ho] at hr
    cases htake : (tasks.take s.max_subagents)[i]? with
    | none => rw [htake] at hr; cases hr
    | some t =>
      rw [htake] at hr
      simp only [Option.map_some'] at hr
      cases hr
      exact ⟨rfl, rfl⟩

theorem task_failure_isolated_witness :
    web_search "q" (Except.error "boom") = [] ∧
    (errorEntry "ts" taskEx "boom").error = some "boom" ∧
    fiveTasks[0]? = some (errorEntry "ts" taskEx "boom").task := by
  have h := task_failure_isolated defaultSettings "ts" fiveTasks failAll failAll 0
  have he := h.2.2.2.1 "boom" (errorEntry "ts" taskEx "boom") rfl (by decide)
  exact ⟨h.1 "q" "boom", he.1, he.2⟩

/-! ## Orchestrator (src/orchestrator.py) -/

/-- `ResearchOrchestrator._create_gap_filling_tasks`: one synthetic task
per identified gap, with deterministic id `gap_task_<n>` (1-based). -/
def create_gap_filling_tasks (gaps : List String) : List SubTask :=
  gaps.enum.map (fun p =>
    { id := "gap_task_" ++ toString (p.1 + 1),
      title := "Address Gap: " ++ p.2,
      description := "Research to address the identified gap: " ++ p.2,
      focus_area := p.2,
      search_queries := [p.2, p.2 ++ " research", p.2 ++ " latest"],
      expected_output := "Information to address the gap: " ++ p.2 })

/-- The external world of one orchestration run, indexed by iteration
number: per-task subagent outcomes and the gateway replies for synthesis,
continuation and re-decomposition. -/
structure OrchestratorEnv where
  outcome : Nat → Nat → Except String SubagentEnv
  roundTimestamp : Nat → String
  synthResp : Nat → Option ParsedSynthesis
  synthRaw : Nat → String
  synthTimestamp : Nat → String
  decisionResp : Nat → Option ParsedDecision
  redecomposeResp : Nat → Option (List RawTask)

/-- The body of `run_research`'s `for iteration in range(1, max_iterations+1)`
loop.  `fuel` is the number of remaining range elements (the caller passes
`maxIter`, and the loop breaks no later than `iteration = maxIter`, so the
fuel never runs out when `maxIter ≥ 1`).  Alongside the source's state
(current query, sub-task list, accumulated `all_results`), the embedding
carries the ghost list `rounds` of each round's result batch, to count the
executed rounds of sub-task execution.  The returned tuple is the last
synthesis, the accumulated results, the ghost rounds, and the final
continuation decision. -/
def researchLoop (s : Settings) (env : OrchestratorEnv) (maxIter : Nat) :
    Nat → Nat → String → List SubTask → List SubTaskResult →
    List (List SubTaskResult) →
    Option (Synthesis × List SubTaskResult × List (List SubTaskResult) ×
      ContinuationDecision)
  | 0, _, _, _, _, _ => none
  | fuel + 1, iteration, current_query, sub_tasks, all_results, rounds =>
    let subagent_results :=
      run_subagents s (env.roundTimestamp iteration) sub_tasks (env.outcome iteration)
    let all_results2 := all_results ++ subagent_results
    let rounds2 := rounds ++ [subagent_results]
    let synthesis := synthesize_results current_query subagent_results
      (env.synthTimestamp iteration) (env.synthResp iteration) (env.synthRaw iteration)
    let decision := needs_more_research_fn iteration (env.decisionResp iteration)
    if decision.needs_more_research = false ∨ maxIter ≤ iteration then
      some (synthesis, all_results2, rounds2, decision)
    else
      match decision.refined_queries with
      | q :: _ =>
        researchLoop s env maxIter fuel (iteration + 1) q
          (decompose_tasks q (env.redecomposeResp iteration)) all_results2 rounds2
      | [] =>
        researchLoop s env maxIter fuel (iteration + 1) current_query
          (create_gap_filling_tasks decision.specific_gaps) all_results2 rounds2

/-- `ResearchOrchestrator.run_research`: plan and decompose (the plan and
the memory store feed only prompts and persistence, not the control flow),
run the bounded loop, then hand the last synthesis and the full
accumulated result sequence to the citation agent. -/
def run_research (s : Settings) (env : OrchestratorEnv)
    (initResp : Option (List RawTask)) (cenv : CitationEnv)
    (reportTs : String) (query : String) (maxIter : Nat) : Option FinalReport :=
  match researchLoop s env maxIter maxIter 1 query (decompose_tasks query initResp) [] [] with
  | none => none
  | some (syn, allr, _, _) => some (process_report syn allr cenv reportTs)

theorem needs_more_research_current_iteration (iteration : Nat)
    (resp : Option ParsedDecision) :
    (needs_more_research_fn iteration resp).current_iteration = iteration := by
  cases resp <;> rfl

theorem researchLoop_total (s : Settings) (env : OrchestratorEnv) (maxIter : Nat) :
    ∀ fuel iteration query tasks acc rounds,
      iteration ≤ maxIter → maxIter + 1 ≤ iteration + fuel →
      ∃ syn allr rounds2 d,
        researchLoop s env maxIter fuel iteration query tasks acc rounds =
          some (syn, allr, rounds2, d) ∧
        rounds2.length + iteration = rounds.length + d.current_iteration + 1 ∧
        iteration ≤ d.current_iteration ∧ d.current_iteration ≤ maxIter ∧
        (d.needs_more_research = false ∨ d.current_iteration = maxIter) := by
  intro fuel
  induction fuel with
  | zero => intro iteration query tasks acc rounds h1 h2; omega
  | succ fuel ih =>
    intro iteration query tasks acc rounds h1 h2
    rw [researchLoop]
    by_cases hcond :
        (needs_more_research_fn iteration (env.decisionResp iteration)).needs_more_research
          = false ∨ maxIter ≤ iteration
    · rw [if_pos hcond]
      refine ⟨_, _, _, _, rfl, ?_, ?_, ?_, ?_⟩
      · simp only [List.length_append, List.length_cons, List.length_nil,
          needs_more_research_current_iteration]
        omega
      · rw [needs_more_research_current_iteration]
      · rw [needs_more_research_current_iteration]; exact h1
      · rw [needs_more_research_current_iteration]
        rcases hcond with h | h
        · exact Or.inl h
        · exact Or.inr (by omega)
    · rw [if_neg hcond]
      push_neg at hcond
      have hlt : iteration < maxIter := by omega
      cases hq : (needs_more_research_fn iteration (env.decisionResp iteration)).refined_queries with
      | cons q qs =>
        obtain ⟨syn, allr, rounds2, d, heq, hlen, hle, hub, hexit⟩ :=
          ih (iteration + 1) q
            (decompose_tasks q (env.redecomposeResp iteration))
            (acc ++ run_subagents s (env.roundTimestamp iteration) tasks (env.outcome iteration))
            (rounds ++ [run_subagents s (env.roundTimestamp iteration) tasks (env.outcome iteration)])
            (by omega) (by omega)
        refine ⟨syn, allr, rounds2, d, heq, ?_, by omega, hub, hexit⟩
        simp only [List.length_append, List.length_cons, List.length_nil] at hlen ⊢
        omega
      | nil =>
        obtain ⟨syn, allr, rounds2, d, heq, hlen, hle, hub, hexit⟩ :=
          ih (iteration + 1) query
            (create_gap_filling_tasks
              (needs_more_research_fn iteration (env.decisionResp iteration)).specific_gaps)
            (acc ++ run_subagents s (env.roundTimestamp iteration) tasks (env.outcome iteration))
            (rounds ++ [run_subagents s (env.roundTimestamp iteration) tasks (env.outcome iteration)])
            (by omega) (by omega)
        refine ⟨syn, allr, rounds2, d, heq, ?_, by omega, hub, hexit⟩
        simp only [List.length_append, List.length_cons, List.length_nil] at hlen ⊢
        omega

theorem researchLoop_accumulates (s : Settings) (env : OrchestratorEnv)
    (maxIter : Nat) :
    ∀ fuel iteration query tasks acc rounds syn allr rounds2 d,
      researchLoop s env maxIter fuel iteration query tasks acc rounds =
        some (syn, allr, rounds2, d) →
      ∃ ext, rounds2 = rounds ++ ext ∧ allr = acc ++ ext.flatten := by
  intro fuel
  induction fuel with
  | zero =>
    intro iteration query tasks acc rounds syn allr rounds2 d h
    rw [researchLoop] at h
    cases h
  | succ fuel ih =>
    intro iteration query tasks acc rounds syn allr rounds2 d h
    rw [researchLoop] at h
    by_cases hcond :
        (needs_more_research_fn iteration (env.decisionResp iteration)).needs_more_research
          = false ∨ maxIter ≤ iteration
    · rw [if_pos hcond] at h
      simp only [Option.some.injEq, Prod.mk.injEq] at h
      obtain ⟨rfl, rfl, rfl, rfl⟩ := h
      exact ⟨[run_subagents s (env.roundTimestamp iteration) tasks (env.outcome iteration)],
        rfl, by simp⟩
    · rw [if_neg hcond] at h
      cases hq : (needs_more_research_fn iteration (env.decisionResp iteration)).refined_queries with
      | cons q qs =>
        rw [hq] at h
        obtain ⟨ext, hext, hallr⟩ := ih _ _ _ _ _ _ _ _ _ h
        refine ⟨run_subagents s (env.roundTimestamp iteration) tasks (env.outcome iteration) :: ext, ?_, ?_⟩
        · rw [hext]; simp
        · rw [hallr]; simp
      | nil =>
        rw [hq] at h
        obtain ⟨ext, hext, hallr⟩ := ih _ _ _ _ _ _ _ _ _ h
        refine ⟨run_subagents s (env.roundTimestamp iteration) tasks (env.outcome iteration) :: ext, ?_, ?_⟩
        · rw [hext]; simp
        · rw [hallr]; simp

/-- Claim C1: for every `max_iterations ≥ 1` and every behavior of the
external collaborators, `run_research`'s loop terminates with at most
`max_iterations` executed rounds of sub-task execution, and the exit round
is one where the continuation decision answered false or the iteration
count reached `max_iterations`. -/
theorem run_research_bounded (s : Settings) (env : OrchestratorEnv)
    (initResp : Option (List RawTask)) (cenv : CitationEnv)
    (reportTs query : String) (maxIter : Nat) (hmax : 1 ≤ maxIter) :
    ∃ syn allr rounds d,
      researchLoop s env maxIter maxIter 1 query (decompose_tasks query initResp) [] [] =
        some (syn, allr, rounds, d) ∧
      rounds.length ≤ maxIter ∧
      (d.needs_more_research = false ∨ rounds.length = maxIter) ∧
      run_research s env initResp cenv reportTs query maxIter =
        some (process_report syn allr cenv reportTs) := by
  obtain ⟨syn, allr, rounds, d, heq, hlen, hle, hub, hexit⟩ :=
    researchLoop_total s env maxIter maxIter 1 query
      (decompose_tasks query initResp) [] [] hmax (by omega)
  have hrounds : rounds.length = d.current_iteration := by
    simp only [List.length_nil] at hlen
    omega
  refine ⟨syn, allr, rounds, d, heq, by omega, ?_, ?_⟩
  · rcases hexit with h | h
    · exact Or.inl h
    · exact Or.inr (by omega)
  · unfold run_research
    rw [heq]

def envEx : OrchestratorEnv :=
  { outcome := fun _ _ => Except.error "boom",
    roundTimestamp := fun _ => "ts",
    synthResp := fun _ => none,
    synthRaw := fun _ => "RAW",
    synthTimestamp := fun _ => "ts",
    decisionResp := fun _ => none,
    redecomposeResp := fun _ => none }

theorem run_research_bounded_witness :
    ∃ syn allr rounds d,
      researchLoop defaultSettings envEx 3 3 1 "q" (decompose_tasks "q" none) [] [] =
        some (syn, allr, rounds, d) ∧
      rounds.length ≤ 3 ∧
      (d.needs_more_research = false ∨ rounds.length = 3) ∧
      run_research defaultSettings envEx none cenvEx "ts" "q" 3 =
        some (process_report syn allr cenvEx "ts") :=
  run_research_bounded defaultSettings envEx none cenvEx "ts" "q" 3 (by decide)

/-- Claim C9: within one run the accumulated result sequence only grows —
every round's batch is appended and the sequence handed to the citation
agent is exactly the concatenation of all rounds' batches, with the loop's
last synthesis the sole subject of citation. -/
theorem results_accumulate (s : Settings) (env : OrchestratorEnv)
    (initResp : Option (List RawTask)) (cenv : CitationEnv)
    (reportTs query : String) (maxIter : Nat) (rep : FinalReport)
    (hrun : run_research s env initResp cenv reportTs query maxIter = some rep) :
    (∀ fuel iteration q2 tasks acc rnds syn2 allr2 rounds2 d2,
      researchLoop s env maxIter fuel iteration q2 tasks acc rnds =
        some (syn2, allr2, rounds2, d2) →
      ∃ ext, rounds2 = rnds ++ ext ∧ allr2 = acc ++ ext.flatten) ∧
    ∃ syn allr rounds d,
      researchLoop s env maxIter maxIter 1 query (decompose_tasks query initResp) [] [] =
        some (syn, allr, rounds, d) ∧
      allr = rounds.flatten ∧
      rep = process_report syn allr cenv reportTs ∧
      rep.original_synthesis = syn ∧
      rep.sources_used = extract_sources allr := by
  refine ⟨fun fuel iteration q2 tasks acc rnds syn2 allr2 rounds2 d2 h =>
    researchLoop_accumulates s env maxIter fuel iteration q2 tasks acc rnds
      syn2 allr2 rounds2 d2 h, ?_⟩
  unfold run_research at hrun
  cases hloop : researchLoop s env maxIter maxIter 1 query
      (decompose_tasks query initResp) [] [] with
  | none => rw [hloop] at hrun; cases hrun
  | some tup =>
    obtain ⟨syn, allr, rounds, d⟩ := tup
    rw [hloop] at hrun
    simp only [Option.some.injEq] at hrun
    obtain ⟨ext, hext, hallr⟩ :=
      researchLoop_accumulates s env maxIter maxIter 1 query
        (decompose_tasks query initResp) [] [] syn allr rounds d hloop
    simp only [List.nil_append] at hext hallr
    subst hext
    refine ⟨syn, allr, rounds, d, rfl, hallr, hrun.symm, ?_, ?_⟩
    · rw [← hrun]; rfl
    · rw [← hrun]; rfl

theorem results_accumulate_witness :
    ∃ rep syn allr rounds d,
      run_research defaultSettings envEx none cenvEx "ts" "q" 1 = some rep ∧
      researchLoop defaultSettings envEx 1 1 1 "q" (decompose_tasks "q" none) [] [] =
        some (syn, allr, rounds, d) ∧
      allr = rounds.flatten ∧
      rep = process_report syn allr cenvEx "ts" := by
  obtain ⟨syn, allr, rounds, d, hloop, _, _, _, _⟩ :=
    researchLoop_total defaultSettings envEx 1 1 1 "q" (decompose_tasks "q" none)
      [] [] (by omega) (by omega)
  have hrun : run_research defaultSettings envEx none cenvEx "ts" "q" 1 =
      some (process_report syn allr cenvEx "ts") := by
    unfold run_research
    rw [hloop]
  obtain ⟨_, syn2, allr2, rounds2, d2, hloop2, hflat, hrep, _, _⟩ :=
    results_accumulate defaultSettings envEx none cenvEx "ts" "q" 1
      (process_report syn allr cenvEx "ts") hrun
  exact ⟨process_report syn allr cenvEx "ts", syn2, allr2, rounds2, d2,
    hrun, hloop2, hflat, hrep⟩

end DeepResearch
